import Mathlib

/-!
Verification of the autonomous task-execution core of the content-marketing
agent (`src/agents/dspy_agent.py`): the agent-state data model, the weighted
decision engine (`ReactDecisionEngine`), the iteration loop (`react_engine`),
the completion / success-metric / complexity / sleep heuristics, and the
capability factory (`createAgent` / `_resolve_signature`).

Modelling conventions:
* Python dicts appearing in handler results are modelled by association lists
  of type `List (String × Val)` with first-match lookup; `Val` covers the
  value shapes the core inspects (strings, booleans, numbers, nested dicts).
* Python floats are modelled by `ℚ`; every constant in the source is a short
  decimal, and every operation used (max, min, +, *) is exact, so no claim in
  scope depends on rounding.
* Every call to `time.time()` made during one loop iteration is modelled by
  that iteration's entry of an explicit clock trace `Env.now`; the random
  noise `random.uniform(0, 0.1)` and the external operation handlers
  (`_think`, `_act`, ... which perform network/LLM calls) are likewise supplied
  by explicit traces in `Env`, so the loop itself is a total function.
-/

/- `Batteries` marks the arithmetic on `Rat` `@[irreducible]`; the concrete
runs below are evaluated by `decide`, so the definitions are unsealed for
this file. -/
attribute [local semireducible] Rat.add Rat.mul Rat.sub Rat.inv
  Rat.ofScientific

set_option maxRecDepth 100000

/-- Model of the Python values the core inspects inside handler-result
dicts: strings, booleans, numbers and nested dicts. -/
inductive Val where
  | vStr : String → Val
  | vBool : Bool → Val
  | vNum : ℚ → Val
  | vObj : List (String × Val) → Val

/-- First-match association-list lookup: Python `d.get(k)` / `d[k]` on a
dict with unique keys. -/
def assocLookup {α : Type} (d : List (String × α)) (k : String) : Option α :=
  (d.find? (fun kv => kv.1 == k)).map (·.2)

/-- Python `k in d` for a dict. -/
def assocHasKey {α : Type} (d : List (String × α)) (k : String) : Bool :=
  d.any (fun kv => kv.1 == k)

/-- Python `d[k] = v`: override the existing entry or append a new one. -/
def assocSet {α : Type} (d : List (String × α)) (k : String) (v : α) :
    List (String × α) :=
  if assocHasKey d k then d.map (fun kv => if kv.1 == k then (k, v) else kv)
  else d ++ [(k, v)]

/-- Python `d.update(r)`: set every key of `r` in `d`, in order. -/
def assocUpdateMany (d r : List (String × Val)) : List (String × Val) :=
  r.foldl (fun acc kv => assocSet acc kv.1 kv.2) d

/-- Python truthiness of a value, as used by `if result.get("success", False)`. -/
def pyTruthy : Val → Bool
  | .vStr s => !(s == "")
  | .vBool b => b
  | .vNum q => !(q == 0)
  | .vObj l => !l.isEmpty

/-- Python `len(v)` for the values the core measures. `len` of a bool or a
number raises `TypeError` in Python; those cases are unreachable in this
program (the measured fields are always strings) and are modelled as 0. -/
def pyLen : Val → Nat
  | .vStr s => s.length
  | .vObj l => l.length
  | _ => 0

/-- Python substring test `needle in hay` on strings. -/
def pyStrContains (hay needle : String) : Bool :=
  (List.range (hay.length + 1)).any
    (fun i => needle.data.isPrefixOf (hay.data.drop i))

/-- Python `str.lower()`; every string the core lowercases is ASCII, for
which a character-wise map matches Python. -/
def pyLower (s : String) : String := String.mk (s.data.map Char.toLower)

/-- Python `key in v`: key membership for dicts, substring test for strings.
On a bool or a number Python raises `TypeError`; that case is unreachable in
this program and is modelled as `false`. -/
def pyContainsKey (key : String) : Val → Bool
  | .vObj fields => assocHasKey fields key
  | .vStr s => pyStrContains s key
  | _ => false

/-- Python `d.get(k, default)`. -/
def pyGet (d : List (String × Val)) (k : String) (dflt : Val) : Val :=
  (assocLookup d k).getD dflt

/-- Python `v[k]` on a value known (by a preceding membership guard) to be a
dict containing `k`; the other cases are unreachable under those guards. -/
def pyGetItem (v : Val) (k : String) : Val :=
  match v with
  | .vObj fields => (assocLookup fields k).getD (.vObj [])
  | _ => .vObj []

/-- The `ReactState` enumeration of control states. -/
inductive ReactState where
  | THINK | ACT | RETHINK | PLAN | EXECUTE | CREATE | SLEEP
deriving DecidableEq, Repr

/-- The `.value` string of each `ReactState` member. -/
def stateValue : ReactState → String
  | .THINK => "think"
  | .ACT => "act"
  | .RETHINK => "rethink"
  | .PLAN => "plan"
  | .EXECUTE => "execute"
  | .CREATE => "create"
  | .SLEEP => "sleep"

/-- The `AgentState` dataclass with its field defaults (`__post_init__`
replaces the `None` defaults of `success_metrics` and `context` by empty
containers; the construction-time `time.time()` default of `timestamp` is
modelled as 0, and no claim in scope reads it before it is overwritten). -/
structure AgentState where
  current_state : ReactState := .SLEEP
  previous_state : Option ReactState := none
  execution_result : Option (List (String × Val)) := none
  error_occurred : Bool := false
  success_metrics : List (String × ℚ) := []
  task_complexity : ℚ := 0.5
  timestamp : ℚ := 0
  iteration_count : Nat := 0
  current_task : Option String := none
  context : List (String × Val) := []

/-- `AgentState.transition_to`, with the `time.time()` call explicit. -/
def AgentState.transition_to (a : AgentState) (s : ReactState) (now : ℚ) :
    AgentState :=
  { a with previous_state := some a.current_state, current_state := s,
           timestamp := now }

/-- `AgentState.update_result`, with the `time.time()` call explicit. -/
def AgentState.update_result (a : AgentState) (r : List (String × Val))
    (err : Bool) (now : ℚ) : AgentState :=
  { a with execution_result := some r, error_occurred := err,
           timestamp := now }

/-- `AgentState.increment_iteration`. -/
def AgentState.increment_iteration (a : AgentState) : AgentState :=
  { a with iteration_count := a.iteration_count + 1 }

/-- The `ExecutionContext` snapshot stored in the decision engine's history. -/
structure ExecutionContext where
  current_state : ReactState
  execution_result : Option (List (String × Val)) := none
  error_occurred : Bool := false
  success_metrics : List (String × ℚ) := []
  task_complexity : ℚ := 0.5
  timestamp : ℚ := 0

/-- The snapshot of an `AgentState` taken inside `decide_next_state`. -/
def contextOf (a : AgentState) : ExecutionContext :=
  { current_state := a.current_state, execution_result := a.execution_result,
    error_occurred := a.error_occurred, success_metrics := a.success_metrics,
    task_complexity := a.task_complexity, timestamp := a.timestamp }

/-- The static decision-weight matrix of `_initialize_decision_matrix`;
absent entries are `.get(state, 0.0)` defaults. -/
def decisionWeight : String → ReactState → ℚ
  | "error_occurred", .RETHINK => 0.9
  | "error_occurred", .PLAN => 0.7
  | "error_occurred", .THINK => 0.5
  | "error_occurred", .SLEEP => 0.2
  | "high_success", .EXECUTE => 0.8
  | "high_success", .CREATE => 0.7
  | "high_success", .ACT => 0.6
  | "high_success", .PLAN => 0.4
  | "new_task", .THINK => 0.9
  | "new_task", .PLAN => 0.8
  | "new_task", .ACT => 0.3
  | "complex_task", .PLAN => 0.9
  | "complex_task", .THINK => 0.8
  | "complex_task", .RETHINK => 0.6
  | "simple_task", .ACT => 0.8
  | "simple_task", .EXECUTE => 0.7
  | "simple_task", .CREATE => 0.5
  | "fatigue", .SLEEP => 0.9
  | "fatigue", .RETHINK => 0.3
  | "fatigue", .PLAN => 0.2
  | _, _ => 0

/-- `ReactDecisionEngine._analyze_agent_state`, with `time.time()` passed
explicitly as `now`. The factors are produced in the source's insertion
order; every factor name produced here occurs in the weight matrix, so the
`if factor in self.decision_weights` guard of the scoring loop is always
satisfied. -/
def analyzeFactors (now : ℚ) (hist : List ExecutionContext) (a : AgentState) :
    List (String × ℚ) :=
  let errF := if a.error_occurred then [("error_occurred", (1 : ℚ))] else []
  let avg : ℚ :=
    (a.success_metrics.map (·.2)).sum / (max a.success_metrics.length 1 : ℚ)
  let sucF := if avg > 0.8 then [("high_success", avg)] else []
  let cxF :=
    if a.task_complexity > 0.7 then [("complex_task", a.task_complexity)]
    else if a.task_complexity < 0.3 then
      [("simple_task", 1 - a.task_complexity)]
    else []
  let recent := hist.filter (fun c => decide (now - c.timestamp < 300))
  let fatF :=
    if recent.length > 10 then
      [("fatigue", min ((recent.length : ℚ) / 20) 1)]
    else []
  let newF :=
    if hist.isEmpty || a.current_state == ReactState.THINK then
      [("new_task", (1 : ℚ))]
    else []
  errF ++ sucF ++ cxF ++ fatF ++ newF

/-- The weighted score of one candidate state, random exploration noise
included (the source draws `random.uniform(0, 0.1)` per state; the draw is
supplied here as an explicit `noise` function). -/
def scoreFor (factors : List (String × ℚ)) (noise : ReactState → ℚ)
    (s : ReactState) : ℚ :=
  factors.foldl (fun acc fw => acc + decisionWeight fw.1 s * fw.2) 0 + noise s

/-- Python `max(state_scores, key=state_scores.get)`: the dict is built by
iterating `ReactState` in declaration order, and `max` keeps the earliest
element whose key value is maximal. -/
def argmaxState (score : ReactState → ℚ) : ReactState :=
  [ReactState.ACT, ReactState.RETHINK, ReactState.PLAN, ReactState.EXECUTE,
   ReactState.CREATE, ReactState.SLEEP].foldl
    (fun best s => if score best < score s then s else best) ReactState.THINK

/-- `ReactDecisionEngine.decide_next_state`: returns the selected state and
the updated FIFO-bounded history (append the snapshot, then `pop(0)` when
the length exceeds 50). -/
def decideNextState (now : ℚ) (noise : ReactState → ℚ)
    (hist : List ExecutionContext) (a : AgentState) :
    ReactState × List ExecutionContext :=
  let next := argmaxState (scoreFor (analyzeFactors now hist a) noise)
  let h := hist ++ [contextOf a]
  let h := if h.length > 50 then h.tail else h
  (next, h)

/-- `DSPyContentAgent._calculate_sleep_duration`, reading the decision
engine's history, with `time.time()` passed explicitly as `now`. -/
def calcSleepDuration (now : ℚ) (hist : List ExecutionContext) : ℚ :=
  let recent := hist.filter (fun c => decide (now - c.timestamp < 300))
  let b1 : ℚ := if recent.length > 10 then 1.0 * 2.0 else 1.0
  let b2 : ℚ :=
    if (recent.filter (·.error_occurred)).length > 3 then b1 * 1.5 else b1
  min b2 10.0

/-- The complexity-indicator table of `_estimate_task_complexity`, in the
source's insertion order. -/
def complexityIndicators : List (String × ℚ) :=
  [("generate", 0.6), ("create", 0.7), ("analyze", 0.8), ("optimize", 0.9),
   ("bilingual", 0.7), ("multi-platform", 0.8), ("trend", 0.6),
   ("chat", 0.3), ("simple", 0.2), ("complex", 0.9), ("advanced", 0.8)]

/-- `DSPyContentAgent._estimate_task_complexity`. -/
def estimateTaskComplexity (task : String) : ℚ :=
  let tl := pyLower task
  let c := complexityIndicators.foldl
    (fun c iw => if pyStrContains tl iw.1 then max c iw.2 else c) 0.5
  let c := if task.length > 100 then c + 0.1 else c
  min c 1

/-- `DSPyContentAgent._calculate_success_metrics`. -/
def calcSuccessMetrics (result : List (String × Val)) : List (String × ℚ) :=
  let m := [("execution_success",
             if pyTruthy (pyGet result "success" (.vBool false)) then (1 : ℚ)
             else 0)]
  let m := m ++ [("error_rate", if assocHasKey result "error" then (1 : ℚ)
                                else 0)]
  let sub := pyGet result "result" (.vObj [])
  let m := if pyContainsKey "content_text" sub then
      m ++ [("content_quality",
             min ((pyLen (pyGetItem sub "content_text") : ℚ) / 500) 1)]
    else m
  let m := if pyContainsKey "response" sub then
      m ++ [("response_quality",
             min ((pyLen (pyGetItem sub "response") : ℚ) / 200) 1)]
    else m
  m

/-- `DSPyContentAgent._is_task_complete` (the `task` argument is accepted
and ignored, as in the source). -/
def isTaskComplete (result : List (String × Val)) (task : String) : Bool :=
  if pyTruthy (pyGet result "success" (.vBool false)) then true
  else if pyContainsKey "content_text" (pyGet result "result" (.vObj [])) then
    true
  else if pyContainsKey "response" (pyGet result "result" (.vObj [])) then true
  else if pyContainsKey "trending_topics" (pyGet result "result" (.vObj []))
    then true
  else false

/-- The six signature classes listed in `DSPyContentAgent.signatures` (the
capability catalogue). The source defines `ContentStrategist` and
`BilingualContentCreator` twice; the later class definition shadows the
earlier one, so the catalogue still holds six distinct names. -/
inductive SignatureName where
  | TrendAnalyzer | ContentStrategist | BilingualContentCreator
  | ConversationManager | ContentOptimizer | ChatAssistant
deriving DecidableEq, Repr

/-- `__name__` of each catalogue entry. -/
def signatureClassName : SignatureName → String
  | .TrendAnalyzer => "TrendAnalyzer"
  | .ContentStrategist => "ContentStrategist"
  | .BilingualContentCreator => "BilingualContentCreator"
  | .ConversationManager => "ConversationManager"
  | .ContentOptimizer => "ContentOptimizer"
  | .ChatAssistant => "ChatAssistant"

/-- `self.signatures`, in source order. -/
def signatureCatalogue : List SignatureName :=
  [.TrendAnalyzer, .ContentStrategist, .BilingualContentCreator,
   .ConversationManager, .ContentOptimizer, .ChatAssistant]

/-- The `signature` argument of `createAgent`: either a string name or a
signature class/instance (a class and an instance of it resolve to the same
class, so both are modelled by `byClass`). -/
inductive SigInput where
  | byName : String → SigInput
  | byClass : SignatureName → SigInput
deriving DecidableEq, Repr

/-- `DSPyContentAgent._resolve_signature`: a class (or instance) resolves to
itself; a string is matched against the catalogue in order, each entry being
tried first for a case-insensitive exact match and then for a substring
match, the first hit winning. -/
def resolveSignature : SigInput → Option SignatureName
  | .byClass c => some c
  | .byName s =>
    signatureCatalogue.findSome? (fun c =>
      if pyLower (signatureClassName c) == pyLower s then some c
      else if pyStrContains (pyLower (signatureClassName c)) (pyLower s) then
        some c
      else none)

/-- The `AgentType` enumeration. -/
inductive AgentType where
  | react | chain_of_thought | predict
deriving DecidableEq, Repr

/-- The `agent_type` argument of `createAgent`: a string or an enum member. -/
inductive AgentTypeInput where
  | byStr : String → AgentTypeInput
  | byEnum : AgentType → AgentTypeInput
deriving DecidableEq, Repr

/-- `AgentType(agent_type.lower())`: enum lookup by value, raising
`ValueError` (modelled as `.error`) when the string is not a member value. -/
def agentTypeOfString (s : String) : Except String AgentType :=
  match pyLower s with
  | "react" => .ok .react
  | "chain_of_thought" => .ok .chain_of_thought
  | "predict" => .ok .predict
  | _ => .error (s ++ " is not a valid AgentType")

/-- The `isinstance(agent_type, str)` normalization step of `createAgent`. -/
def normAgentType : AgentTypeInput → Except String AgentType
  | .byStr s => agentTypeOfString s
  | .byEnum t => .ok t

/-- A created DSPy module instance: `dspy.ReAct`, `dspy.ChainOfThought` or
`dspy.Predict` applied to a resolved signature class. -/
inductive AgentInstance where
  | reactOf : SignatureName → AgentInstance
  | chainOfThoughtOf : SignatureName → AgentInstance
  | predictOf : SignatureName → AgentInstance
deriving DecidableEq, Repr

/-- `d[k] = v` on the created-agents map. -/
def storeAgent (d : List (String × AgentInstance)) (k : String)
    (v : AgentInstance) : List (String × AgentInstance) :=
  if assocHasKey d k then d.map (fun kv => if kv.1 == k then (k, v) else kv)
  else d ++ [(k, v)]

/-- `DSPyContentAgent.createAgent`: normalize the agent type, resolve the
signature (raising `ValueError` on failure), construct the instance, store
it in `botState.created_agents` when a name is supplied, and return it.
Any exception raised inside the body is caught and re-raised as
`RuntimeError("Failed to create agent: ...")`, i.e. errors propagate to the
caller rather than being swallowed. The source's final `else: raise
ValueError("Unsupported agent type")` branch is unreachable after the enum
normalization and has no counterpart here. -/
def createAgent (created : List (String × AgentInstance))
    (agent_type : AgentTypeInput) (signature : SigInput)
    (agent_name : Option String) :
    Except String (AgentInstance × List (String × AgentInstance)) :=
  let inner : Except String (AgentInstance × List (String × AgentInstance)) :=
    match normAgentType agent_type with
    | .error e => .error e
    | .ok t =>
      match resolveSignature signature with
      | none => .error "Could not resolve signature"
      | some sigName =>
        let agent := match t with
          | .react => AgentInstance.reactOf sigName
          | .chain_of_thought => AgentInstance.chainOfThoughtOf sigName
          | .predict => AgentInstance.predictOf sigName
        let created' := match agent_name with
          | some n => storeAgent created n agent
          | none => created
        .ok (agent, created')
  match inner with
  | .ok x => .ok x
  | .error e => .error ("Failed to create agent: " ++ e)

/-- The per-run environment of `react_engine`: `exec k s` is the outcome of
`_execute_state` at loop iteration `k` when the agent state is `s` (the
handlers are external LLM-backed collaborators and may raise); `noise k` is
the exploration noise drawn inside the iteration-`k` decision; `now k` is
the wall-clock value during iteration `k` (`now 0` is the clock at
initialization). The handlers of this repository return dicts drawn from a
fixed key vocabulary (`action`, `result`, `success`, `error`, ...) that
never collides with the orchestrator-owned keys of `final_result`
(`state_transitions`, `status`, `sleep_duration`, ...), so the transition
log and the sleep log are modelled as dedicated fields of the run state. -/
structure Env where
  exec : Nat → ReactState → Except String (List (String × Val))
  noise : Nat → ReactState → ℚ
  now : Nat → ℚ

/-- One entry of `final_result["state_transitions"]`; the `ctx_` fields are
the `"context"` snapshot recorded with it. -/
structure TransRecord where
  fromState : ReactState
  toState : ReactState
  iteration : Nat
  timestamp : ℚ
  ctx_error : Bool
  ctx_metrics : List (String × ℚ)
  ctx_complexity : ℚ
deriving DecidableEq, Repr

/-- The mutable state of one `react_engine` invocation: the agent state, the
decision engine's history, the transition log, the scalar/merged entries of
`final_result`, the local `iteration_count` variable, the completion flag,
and the log of durations passed to `asyncio.sleep`. -/
structure RunState where
  agent : AgentState
  hist : List ExecutionContext
  transitions : List TransRecord := []
  merged : List (String × Val) := []
  count : Nat := 0
  completed : Bool := false
  sleeps : List ℚ := []

/-- Whether an `_execute_state` outcome is a raised exception. -/
def isErr {α : Type} : Except String α → Bool
  | .error _ => true
  | .ok _ => false

/-- The state actually holding at the next execution step after a decision:
a `SLEEP` decision is followed by a forced transition to `THINK`. -/
def effNext (s : ReactState) : ReactState :=
  if s = ReactState.SLEEP then ReactState.THINK else s

/-- The `finally` block of the loop body: ask the decision engine for the
next state, append the transition record, transition and increment the
agent state, and on a `SLEEP` decision compute a sleep duration, suspend,
and force-transition to `THINK`. -/
def finallyStep (env : Env) (k : Nat) (rs : RunState) : RunState :=
  let t := env.now k
  let dec := decideNextState t (env.noise k) rs.hist rs.agent
  let tr : TransRecord :=
    { fromState := rs.agent.current_state, toState := dec.1, iteration := k,
      timestamp := t, ctx_error := rs.agent.error_occurred,
      ctx_metrics := rs.agent.success_metrics,
      ctx_complexity := rs.agent.task_complexity }
  let a := (rs.agent.transition_to dec.1 t).increment_iteration
  if dec.1 = ReactState.SLEEP then
    let d := calcSleepDuration t dec.2
    { rs with agent := a.transition_to ReactState.THINK t, hist := dec.2,
              transitions := rs.transitions ++ [tr],
              merged := assocSet rs.merged "sleep_duration" (.vNum d),
              sleeps := rs.sleeps ++ [d] }
  else
    { rs with agent := a, hist := dec.2,
              transitions := rs.transitions ++ [tr] }

/-- One full iteration of the `while` loop (`try` / `except` / `finally`),
entered with the local iteration counter already advanced to `k`. -/
def iterStep (env : Env) (task : String) (k : Nat) (rs : RunState) :
    RunState :=
  let rs := { rs with count := k }
  let t := env.now k
  match env.exec k rs.agent.current_state with
  | .ok res =>
    let a := rs.agent.update_result res false t
    let a := { a with success_metrics := calcSuccessMetrics res }
    let merged := assocUpdateMany rs.merged res
    let complete := isTaskComplete res task
    let merged :=
      if complete then
        assocSet (assocSet merged "status" (.vStr "completed")) "iterations"
          (.vNum (k : ℚ))
      else merged
    finallyStep env k
      { rs with agent := a, merged := merged, completed := complete }
  | .error e =>
    let a := rs.agent.update_result [("error", .vStr e)] true t
    let merged := assocSet rs.merged "error" (.vStr e)
    let merged :=
      assocSet merged "error_state" (.vStr (stateValue rs.agent.current_state))
    finallyStep env k { rs with agent := a, merged := merged }

/-- The `while iteration_count < max_iterations` loop, with `fuel` the
remaining budget and `k` the iterations already performed; the `break` after
a satisfied completion predicate fires once the `finally` block has run. -/
def reactLoop (env : Env) (task : String) : Nat → Nat → RunState → RunState
  | 0, _, rs => rs
  | fuel + 1, k, rs =>
    let rs' := iterStep env task (k + 1) rs
    if rs'.completed then rs' else reactLoop env task fuel (k + 1) rs'

/-- The initialization prologue of `react_engine`: set the current task and
its estimated complexity, transition to `THINK`, and install the caller's
context. The agent's `iteration_count` field is not touched here (only the
loop-local counter starts at 0). -/
def initAgent (task : String) (ctx : List (String × Val)) (t : ℚ)
    (a : AgentState) : AgentState :=
  let a := { a with current_task := some task,
                    task_complexity := estimateTaskComplexity task }
  let a := a.transition_to ReactState.THINK t
  { a with context := ctx }

/-- `DSPyContentAgent.react_engine`: initialize, loop, then record the final
state and total iteration count in the result. `a0` and `hist0` are the
agent state and the decision-engine history held by the host object when the
invocation starts (a fresh host has `a0 = {}` and `hist0 = []`). -/
def react_engine (env : Env) (task : String) (ctx : List (String × Val))
    (maxIter : Nat) (a0 : AgentState) (hist0 : List ExecutionContext) :
    RunState :=
  let a := initAgent task ctx (env.now 0) a0
  let rs := reactLoop env task maxIter 0
    { agent := a, hist := hist0, transitions := [], merged := [], count := 0,
      completed := false, sleeps := [] }
  let m1 := assocSet rs.merged "final_state"
    (.vStr (stateValue rs.agent.current_state))
  let m2 := assocSet m1 "total_iterations" (.vNum (rs.count : ℚ))
  { rs with merged := m2 }

/-- `chainOK env k s trs sfin` says the record list `trs` is the transition
log of consecutive loop iterations `k, k+1, ...` starting with agent state
`s` and ending with agent state `sfin`: each record carries its iteration
number, the state in which the handler ran, the error flag of that
iteration's handler outcome, and the loop continues in the decided state
(with `SLEEP` replaced by `THINK`). -/
def chainOK (env : Env) :
    Nat → ReactState → List TransRecord → ReactState → Prop
  | _, s, [], sfin => sfin = s
  | k, s, tr :: rest, sfin =>
    tr.iteration = k ∧ tr.fromState = s ∧ s ≠ ReactState.SLEEP ∧
    tr.ctx_error = isErr (env.exec k s) ∧
    chainOK env (k + 1) (effNext tr.toState) rest sfin

/-- The loop invariant of `react_engine`: the transition log is a valid
chain starting at iteration 1 in state `THINK`; its length equals the local
iteration counter; the agent's `iteration_count` field has grown by exactly
the number of completed iterations over its value `base` at invocation
start; and the suspension log holds one in-bounds duration per `SLEEP`
decision. -/
structure LoopInv (env : Env) (base : Nat) (rs : RunState) : Prop where
  chain : chainOK env 1 ReactState.THINK rs.transitions rs.agent.current_state
  len_eq : rs.transitions.length = rs.count
  iters : rs.agent.iteration_count = base + rs.count
  sleeps_ok : ∀ d ∈ rs.sleeps, 1 ≤ d ∧ d ≤ 10
  sleeps_len : rs.sleeps.length =
    (rs.transitions.filter (fun tr => tr.toState == ReactState.SLEEP)).length

/-- A run environment whose handler raises on every iteration. -/
def c1env : Env :=
  { exec := fun _ _ => .error "boom", noise := fun _ _ => 0,
    now := fun _ => 0 }

/-- The single transition record of the one-iteration `c1env` run. -/
def c1rec : TransRecord :=
  { fromState := .THINK, toState := .PLAN, iteration := 1, timestamp := 0,
    ctx_error := true, ctx_metrics := [], ctx_complexity := 1/2 }

/-- A run environment whose handler returns an empty result on every
iteration (never raising, never satisfying the completion predicate). -/
def c4env : Env :=
  { exec := fun _ _ => .ok [], noise := fun _ _ => 0, now := fun _ => 0 }

/-- The first transition record of a `c4env` run. -/
def c4rec : TransRecord :=
  { fromState := .THINK, toState := .THINK, iteration := 1, timestamp := 0,
    ctx_error := false,
    ctx_metrics := [("execution_success", 0), ("error_rate", 0)],
    ctx_complexity := 1/2 }

/-- A run environment with benign handlers, used together with a saturated
decision history so that the fatigue factor drives a `SLEEP` decision. -/
def c9env : Env :=
  { exec := fun _ _ => .ok [], noise := fun _ _ => 0, now := fun _ => 0 }

/-- Eleven recent history snapshots, enough to trigger the fatigue factor. -/
def c9hist : List ExecutionContext :=
  List.replicate 11 { current_state := .ACT, timestamp := 0 }

/-- The second transition record of the `c9env` run from `c9hist`: the
decision engine selects `SLEEP` at iteration 2. -/
def c9rec : TransRecord :=
  { fromState := .PLAN, toState := .SLEEP, iteration := 2, timestamp := 0,
    ctx_error := false,
    ctx_metrics := [("execution_success", 0), ("error_rate", 0)],
    ctx_complexity := 1/2 }

/-- A run environment whose handler returns an error-shaped result on
iteration 1 (producing a non-zero `error_rate` success metric) and raises
from iteration 2 on. -/
def c3env : Env :=
  { exec := fun k _ =>
      if k == 1 then .ok [("error", .vStr "x")] else .error "boom",
    noise := fun _ _ => 0, now := fun _ => 0 }

/-- A run state about to execute an iteration in state `THINK`. -/
def c3rs : RunState :=
  { agent := { current_state := .THINK }, hist := [] }

/-- A run environment with benign handlers for the re-invocation scenario. -/
def c6env : Env :=
  { exec := fun _ _ => .ok [], noise := fun _ _ => 0, now := fun _ => 0 }

/-- An agent state outside `THINK`, with no error and default metrics. -/
def c7agent : AgentState := { current_state := .ACT }

/-- Eleven history snapshots taken at time 0: recent when the clock reads
0, stale when it reads 1000. -/
def c7hist : List ExecutionContext :=
  List.replicate 11 { current_state := .ACT, timestamp := 0 }

/-- The exploration noise pinned to 0. -/
def c7noise : ReactState → ℚ := fun _ => 0

/-- `effNext` never yields `SLEEP`. -/
theorem effNext_ne (s : ReactState) : effNext s ≠ ReactState.SLEEP := by
  unfold effNext
  split
  · exact fun h => ReactState.noConfusion h
  · assumption

/-- A chain that starts in a non-`SLEEP` state also ends in one. -/
theorem chainOK_ne_sleep (env : Env) :
    ∀ (trs : List TransRecord) (k : Nat) (s sfin : ReactState),
      chainOK env k s trs sfin → s ≠ ReactState.SLEEP →
      sfin ≠ ReactState.SLEEP := by
  intro trs
  induction trs with
  | nil =>
    intro k s sfin h hs
    rw [show sfin = s from h]
    exact hs
  | cons hd tl ih =>
    intro k s sfin h _
    exact ih (k + 1) (effNext hd.toState) sfin h.2.2.2.2 (effNext_ne _)

/-- Appending one valid record to a valid chain. -/
theorem chainOK_append (env : Env) :
    ∀ (trs : List TransRecord) (k : Nat) (s sfin : ReactState)
      (tr : TransRecord),
      chainOK env k s trs sfin →
      tr.iteration = k + trs.length → tr.fromState = sfin →
      sfin ≠ ReactState.SLEEP →
      tr.ctx_error = isErr (env.exec tr.iteration sfin) →
      chainOK env k s (trs ++ [tr]) (effNext tr.toState) := by
  intro trs
  induction trs with
  | nil =>
    intro k s sfin tr h hiter hfrom hns herr
    have hs : sfin = s := h
    subst hs
    refine ⟨by simpa using hiter, hfrom, hns, ?_, rfl⟩
    rw [herr, hiter]
    simp
  | cons hd tl ih =>
    intro k s sfin tr h hiter hfrom hns herr
    obtain ⟨h1, h2, h3, h4, h5⟩ := h
    refine ⟨h1, h2, h3, h4, ?_⟩
    exact ih (k + 1) (effNext hd.toState) sfin tr h5
      (by simp at hiter; omega) hfrom hns herr

/-- Reading one record out of a valid chain. -/
theorem chainOK_get (env : Env) :
    ∀ (trs : List TransRecord) (k : Nat) (s sfin : ReactState),
      chainOK env k s trs sfin → s ≠ ReactState.SLEEP →
      ∀ (i : Nat) (tr : TransRecord), trs[i]? = some tr →
        tr.iteration = k + i ∧ tr.fromState ≠ ReactState.SLEEP ∧
        tr.ctx_error = isErr (env.exec tr.iteration tr.fromState) := by
  intro trs
  induction trs with
  | nil => intro k s sfin _ _ i tr hget; simp at hget
  | cons hd tl ih =>
    intro k s sfin h hs i tr hget
    obtain ⟨h1, h2, h3, h4, h5⟩ := h
    match i with
    | 0 =>
      have : hd = tr := by simpa using hget
      subst this
      exact ⟨by simpa using h1, h2 ▸ hs, by rw [h4, h1, h2]⟩
    | i + 1 =>
      have hget' : tl[i]? = some tr := by simpa using hget
      have := ih (k + 1) (effNext hd.toState) sfin h5 (effNext_ne _) i tr hget'
      exact ⟨by omega, this.2⟩

/-- Consecutive records of a valid chain: the next record's source state is
the previous record's decided state, with `SLEEP` replaced by `THINK`. -/
theorem chainOK_consec (env : Env) :
    ∀ (trs : List TransRecord) (k : Nat) (s sfin : ReactState),
      chainOK env k s trs sfin →
      ∀ (i : Nat) (tr tr' : TransRecord),
        trs[i]? = some tr → trs[i + 1]? = some tr' →
        tr'.fromState = effNext tr.toState := by
  intro trs
  induction trs with
  | nil => intro k s sfin _ i tr tr' hget _; simp at hget
  | cons hd tl ih =>
    intro k s sfin h i tr tr' hget hget'
    obtain ⟨h1, h2, h3, h4, h5⟩ := h
    match i with
    | 0 =>
      have hhd : hd = tr := by simpa using hget
      subst hhd
      have hget'' : tl[0]? = some tr' := by simpa using hget'
      match tl, h5, hget'' with
      | t0 :: _, h5, hget'' =>
        have : t0 = tr' := by simpa using hget''
        subst this
        exact h5.2.1
    | i + 1 =>
      exact ih (k + 1) (effNext hd.toState) sfin h5 i tr tr'
        (by simpa using hget) (by simpa using hget')

/-- The final agent state of a non-empty valid chain is the last record's
decided state, with `SLEEP` replaced by `THINK`. -/
theorem chainOK_final (env : Env) :
    ∀ (trs : List TransRecord) (k : Nat) (s sfin : ReactState),
      chainOK env k s trs sfin →
      ∀ tr : TransRecord, trs.getLast? = some tr →
        sfin = effNext tr.toState := by
  intro trs
  induction trs with
  | nil => intro k s sfin _ tr hlast; simp at hlast
  | cons hd tl ih =>
    intro k s sfin h tr hlast
    obtain ⟨_, _, _, _, h5⟩ := h
    match tl, h5, hlast with
    | [], h5, hlast =>
      have : hd = tr := by simpa using hlast
      subst this
      exact h5
    | t0 :: tl', h5, hlast =>
      exact ih (k + 1) (effNext hd.toState) sfin h5 tr
        (by simpa [List.getLast?] using hlast)

/-- The sleep duration is always within `[1, 10]`. -/
theorem sleepDuration_bounds (now : ℚ) (hist : List ExecutionContext) :
    1 ≤ calcSleepDuration now hist ∧ calcSleepDuration now hist ≤ 10 := by
  simp only [calcSleepDuration]
  refine ⟨le_min ?_ (by norm_num), le_trans (min_le_right _ _) (by norm_num)⟩
  split <;> split <;> norm_num

/-- Structural description of one `finally` block: exactly one transition
record is appended, carrying the agent snapshot at decision time; the agent
transitions to the decided state (`SLEEP` being immediately replaced by
`THINK` after the bounded suspension) and its iteration counter is
incremented once; the error flag, last result and success metrics are left
untouched; and the suspension log grows by one in-bounds duration exactly
when `SLEEP` was decided. -/
theorem finallyStep_char (env : Env) (k : Nat) (rs : RunState) :
    ∃ next : ReactState,
      (finallyStep env k rs).transitions = rs.transitions ++
        [{ fromState := rs.agent.current_state, toState := next,
           iteration := k, timestamp := env.now k,
           ctx_error := rs.agent.error_occurred,
           ctx_metrics := rs.agent.success_metrics,
           ctx_complexity := rs.agent.task_complexity }] ∧
      (finallyStep env k rs).agent.current_state = effNext next ∧
      (finallyStep env k rs).agent.iteration_count =
        rs.agent.iteration_count + 1 ∧
      (finallyStep env k rs).agent.error_occurred =
        rs.agent.error_occurred ∧
      (finallyStep env k rs).agent.execution_result =
        rs.agent.execution_result ∧
      (finallyStep env k rs).agent.success_metrics =
        rs.agent.success_metrics ∧
      (finallyStep env k rs).agent.task_complexity =
        rs.agent.task_complexity ∧
      (finallyStep env k rs).count = rs.count ∧
      (finallyStep env k rs).completed = rs.completed ∧
      ((next = ReactState.SLEEP ∧
        ∃ d, (finallyStep env k rs).sleeps = rs.sleeps ++ [d] ∧
          1 ≤ d ∧ d ≤ 10) ∨
       (next ≠ ReactState.SLEEP ∧
        (finallyStep env k rs).sleeps = rs.sleeps)) := by
  refine ⟨(decideNextState (env.now k) (env.noise k) rs.hist rs.agent).1, ?_⟩
  simp only [finallyStep]
  split
  next h =>
    refine ⟨rfl, ?_, ?_, rfl, rfl, rfl, rfl, rfl, rfl, ?_⟩
    · simp [AgentState.transition_to, AgentState.increment_iteration,
        effNext, h]
    · simp [AgentState.transition_to, AgentState.increment_iteration]
    · exact Or.inl ⟨h, _, rfl, sleepDuration_bounds _ _⟩
  next h =>
    refine ⟨rfl, ?_, ?_, rfl, rfl, rfl, rfl, rfl, rfl, Or.inr ⟨h, rfl⟩⟩
    · simp [AgentState.transition_to, AgentState.increment_iteration,
        effNext, h]
    · simp [AgentState.transition_to, AgentState.increment_iteration]

/-- Structural description of one full loop iteration: regardless of whether
the handler call succeeded or raised, exactly one transition record is
appended; it carries the iteration number, the state in which the handler
ran, and an error flag equal to whether the handler raised; the agent moves
to the decided state (`SLEEP` replaced by `THINK`), its iteration counter
is incremented once, and the suspension log grows by one in-bounds duration
exactly when `SLEEP` was decided. -/
theorem iterStep_char (env : Env) (task : String) (k : Nat) (rs : RunState) :
    ∃ tr : TransRecord,
      (iterStep env task k rs).transitions = rs.transitions ++ [tr] ∧
      tr.iteration = k ∧
      tr.fromState = rs.agent.current_state ∧
      tr.ctx_error = isErr (env.exec k rs.agent.current_state) ∧
      (iterStep env task k rs).agent.current_state = effNext tr.toState ∧
      (iterStep env task k rs).agent.iteration_count =
        rs.agent.iteration_count + 1 ∧
      (iterStep env task k rs).count = k ∧
      ((tr.toState = ReactState.SLEEP ∧
        ∃ d, (iterStep env task k rs).sleeps = rs.sleeps ++ [d] ∧
          1 ≤ d ∧ d ≤ 10) ∨
       (tr.toState ≠ ReactState.SLEEP ∧
        (iterStep env task k rs).sleeps = rs.sleeps)) := by
  simp only [iterStep]
  rcases hx : env.exec k rs.agent.current_state with e | res
  · obtain ⟨next, h1, h2, h3, h4, h5, h6, h7, h8, h9, h10⟩ :=
      finallyStep_char env k
        { rs with count := k,
                  agent := rs.agent.update_result [("error", .vStr e)] true
                    (env.now k),
                  merged := assocSet
                    (assocSet rs.merged "error" (.vStr e)) "error_state"
                    (.vStr (stateValue rs.agent.current_state)) }
    refine ⟨{ fromState := rs.agent.current_state, toState := next,
              iteration := k, timestamp := env.now k, ctx_error := true,
              ctx_metrics := rs.agent.success_metrics,
              ctx_complexity := rs.agent.task_complexity }, ?_⟩
    simp only [AgentState.update_result] at h1 h2 h3 h4 h5 h6 h7 h8 h9 h10
    refine ⟨h1, rfl, rfl, rfl, h2, h3, h8, ?_⟩
    rcases h10 with ⟨hn, d, hd⟩ | ⟨hn, hd⟩
    · exact Or.inl ⟨hn, d, hd⟩
    · exact Or.inr ⟨hn, hd⟩
  · obtain ⟨next, h1, h2, h3, h4, h5, h6, h7, h8, h9, h10⟩ :=
      finallyStep_char env k
        { rs with count := k,
                  agent := { rs.agent.update_result res false (env.now k) with
                             success_metrics := calcSuccessMetrics res },
                  merged := if isTaskComplete res task then
                      assocSet
                        (assocSet (assocUpdateMany rs.merged res) "status"
                          (.vStr "completed")) "iterations" (.vNum (k : ℚ))
                    else assocUpdateMany rs.merged res,
                  completed := isTaskComplete res task }
    refine ⟨{ fromState := rs.agent.current_state, toState := next,
              iteration := k, timestamp := env.now k, ctx_error := false,
              ctx_metrics := calcSuccessMetrics res,
              ctx_complexity := rs.agent.task_complexity }, ?_⟩
    simp only [AgentState.update_result] at h1 h2 h3 h4 h5 h6 h7 h8 h9 h10
    refine ⟨h1, rfl, rfl, rfl, h2, h3, h8, ?_⟩
    rcases h10 with ⟨hn, d, hd⟩ | ⟨hn, hd⟩
    · exact Or.inl ⟨hn, d, hd⟩
    · exact Or.inr ⟨hn, hd⟩

/-- One loop iteration preserves the invariant and advances the counter. -/
theorem iterStep_inv (env : Env) (task : String) (base : Nat) (rs : RunState)
    (h : LoopInv env base rs) (k : Nat) (hc : rs.count = k) :
    LoopInv env base (iterStep env task (k + 1) rs) ∧
    (iterStep env task (k + 1) rs).count = k + 1 := by
  obtain ⟨tr, htr, hit, hfrom, herr, hcur, hic, hcnt, hsl⟩ :=
    iterStep_char env task (k + 1) rs
  have hns : rs.agent.current_state ≠ ReactState.SLEEP :=
    chainOK_ne_sleep env rs.transitions 1 ReactState.THINK
      rs.agent.current_state h.chain (by decide)
  refine ⟨⟨?_, ?_, ?_, ?_, ?_⟩, hcnt⟩
  · rw [htr, hcur]
    refine chainOK_append env rs.transitions 1 ReactState.THINK
      rs.agent.current_state tr h.chain ?_ hfrom hns ?_
    · rw [hit, h.len_eq, hc]; omega
    · rw [herr, hit]
  · rw [htr, hcnt]
    simp [h.len_eq, hc]
  · rw [hic, hcnt, h.iters, hc]
    omega
  · rcases hsl with ⟨_, d, hd, hd1, hd10⟩ | ⟨_, hd⟩
    · intro d' hd'
      rw [hd] at hd'
      rcases List.mem_append.mp hd' with hmem | hmem
      · exact h.sleeps_ok d' hmem
      · have : d' = d := by simpa using hmem
        subst this
        exact ⟨hd1, hd10⟩
    · intro d' hd'
      rw [hd] at hd'
      exact h.sleeps_ok d' hd'
  · rcases hsl with ⟨hn, d, hd, _, _⟩ | ⟨hn, hd⟩
    · rw [hd, htr]
      simp [List.filter_append, hn, h.sleeps_len]
    · rw [hd, htr]
      simp [List.filter_append, hn, h.sleeps_len]

/-- The loop preserves the invariant and performs at most `fuel` further
iterations. -/
theorem reactLoop_inv (env : Env) (task : String) (base : Nat) :
    ∀ (fuel k : Nat) (rs : RunState), LoopInv env base rs → rs.count = k →
      LoopInv env base (reactLoop env task fuel k rs) ∧
      (reactLoop env task fuel k rs).count ≤ k + fuel := by
  intro fuel
  induction fuel with
  | zero =>
    intro k rs h hc
    simp only [reactLoop]
    exact ⟨h, by omega⟩
  | succ n ih =>
    intro k rs h hc
    simp only [reactLoop]
    obtain ⟨h', hc'⟩ := iterStep_inv env task base rs h k hc
    split
    · exact ⟨h', by omega⟩
    · obtain ⟨h'', hle⟩ := ih (k + 1) _ h' hc'
      exact ⟨h'', by omega⟩

/-- The invariant holds of every complete `react_engine` run, and the run
performs at most `maxIter` iterations. -/
theorem react_engine_inv (env : Env) (task : String)
    (ctx : List (String × Val)) (maxIter : Nat) (a0 : AgentState)
    (hist0 : List ExecutionContext) :
    LoopInv env a0.iteration_count
      (react_engine env task ctx maxIter a0 hist0) ∧
    (react_engine env task ctx maxIter a0 hist0).count ≤ maxIter := by
  have h0 : LoopInv env a0.iteration_count
      { agent := initAgent task ctx (env.now 0) a0, hist := hist0,
        transitions := [], merged := [], count := 0, completed := false,
        sleeps := [] } := by
    refine ⟨?_, rfl, ?_, ?_, ?_⟩
    · show chainOK env 1 ReactState.THINK []
        (initAgent task ctx (env.now 0) a0).current_state
      simp [chainOK, initAgent, AgentState.transition_to]
    · simp [initAgent, AgentState.transition_to]
    · intro d hd
      simp at hd
    · rfl
  obtain ⟨h, hle⟩ := reactLoop_inv env task a0.iteration_count maxIter 0 _ h0 rfl
  exact ⟨⟨h.chain, h.len_eq, h.iters, h.sleeps_ok, h.sleeps_len⟩,
    by simpa using hle⟩

/-- C1 (confirmed). Finally-guarantee: in every `react_engine` run, every
iteration — successful, failed, or the one satisfying completion — appends
exactly one transition record (the log length equals the number of
performed iterations), the record of the `i`-th position carries iteration
number `i + 1`, and if the handler call of that iteration raised then the
record's snapshot has `error_occurred = true`. -/
theorem c1_finally_guarantee (env : Env) (task : String)
    (ctx : List (String × Val)) (maxIter : Nat) (a0 : AgentState)
    (hist0 : List ExecutionContext) :
    (react_engine env task ctx maxIter a0 hist0).transitions.length =
      (react_engine env task ctx maxIter a0 hist0).count ∧
    ∀ (i : Nat) (tr : TransRecord),
      (react_engine env task ctx maxIter a0 hist0).transitions[i]? =
        some tr →
      tr.iteration = i + 1 ∧
      (isErr (env.exec (i + 1) tr.fromState) = true →
        tr.ctx_error = true) := by
  obtain ⟨inv, _⟩ := react_engine_inv env task ctx maxIter a0 hist0
  refine ⟨inv.len_eq, ?_⟩
  intro i tr hget
  obtain ⟨hi, hns, herr⟩ :=
    chainOK_get env _ 1 _ _ inv.chain (by decide) i tr hget
  refine ⟨by omega, ?_⟩
  intro hraise
  rw [herr, hi, Nat.add_comm 1 i]
  exact hraise

/-- Witness for C1: in the concrete one-iteration run under `c1env` (whose
handler raises), the transition record at index 0 exists, carries iteration
number 1, and its snapshot records the error. -/
theorem c1_finally_guarantee_witness :
    c1rec.iteration = 0 + 1 ∧
    (isErr (c1env.exec (0 + 1) c1rec.fromState) = true →
      c1rec.ctx_error = true) :=
  (c1_finally_guarantee c1env "t" [] 1 {} []).2 0 c1rec (by decide)

/-- C4 (confirmed). Budget respected and monotonic iteration: every run
with budget `maxIter` performs at most `maxIter` iterations, the length of
the transition log equals the number of completed iterations (hence is at
most `maxIter`), and the `i`-th record (0-based) has iteration `i + 1`. -/
theorem c4_budget_respected (env : Env) (task : String)
    (ctx : List (String × Val)) (maxIter : Nat) (a0 : AgentState)
    (hist0 : List ExecutionContext) :
    (react_engine env task ctx maxIter a0 hist0).count ≤ maxIter ∧
    (react_engine env task ctx maxIter a0 hist0).transitions.length =
      (react_engine env task ctx maxIter a0 hist0).count ∧
    (react_engine env task ctx maxIter a0 hist0).transitions.length ≤
      maxIter ∧
    ∀ (i : Nat) (tr : TransRecord),
      (react_engine env task ctx maxIter a0 hist0).transitions[i]? =
        some tr → tr.iteration = i + 1 := by
  obtain ⟨inv, hle⟩ := react_engine_inv env task ctx maxIter a0 hist0
  refine ⟨hle, inv.len_eq, by rw [inv.len_eq]; exact hle, ?_⟩
  intro i tr hget
  obtain ⟨hi, _, _⟩ :=
    chainOK_get env _ 1 _ _ inv.chain (by decide) i tr hget
  omega

/-- Witness for C4: the concrete three-iteration run under `c4env` performs
at most its budget of 3 iterations, and its first record has iteration 1. -/
theorem c4_budget_respected_witness :
    (react_engine c4env "t" [] 3 {} []).count ≤ 3 ∧
    c4rec.iteration = 0 + 1 :=
  ⟨(c4_budget_respected c4env "t" [] 3 {} []).1,
   (c4_budget_respected c4env "t" [] 3 {} []).2.2.2 0 c4rec (by decide)⟩

/-- C9 (confirmed). Sleep handling: no execution step of the loop ever runs
with `current_state = SLEEP` (every record's source state differs from
`SLEEP`); whenever the decision engine selects `SLEEP`, the agent is
force-transitioned to `THINK` before the next iteration (and likewise after
a final-iteration `SLEEP`); and each `SLEEP` decision performs exactly one
suspension whose computed duration is bounded within `[1, 10]`. -/
theorem c9_sleep_transition (env : Env) (task : String)
    (ctx : List (String × Val)) (maxIter : Nat) (a0 : AgentState)
    (hist0 : List ExecutionContext) :
    (∀ (i : Nat) (tr : TransRecord),
      (react_engine env task ctx maxIter a0 hist0).transitions[i]? =
        some tr → tr.fromState ≠ ReactState.SLEEP) ∧
    (∀ (i : Nat) (tr tr' : TransRecord),
      (react_engine env task ctx maxIter a0 hist0).transitions[i]? =
        some tr →
      (react_engine env task ctx maxIter a0 hist0).transitions[i + 1]? =
        some tr' →
      tr.toState = ReactState.SLEEP → tr'.fromState = ReactState.THINK) ∧
    (∀ tr : TransRecord,
      (react_engine env task ctx maxIter a0 hist0).transitions.getLast? =
        some tr →
      tr.toState = ReactState.SLEEP →
      (react_engine env task ctx maxIter a0 hist0).agent.current_state =
        ReactState.THINK) ∧
    (react_engine env task ctx maxIter a0 hist0).sleeps.length =
      ((react_engine env task ctx maxIter a0 hist0).transitions.filter
        (fun tr => tr.toState == ReactState.SLEEP)).length ∧
    ∀ d ∈ (react_engine env task ctx maxIter a0 hist0).sleeps,
      1 ≤ d ∧ d ≤ 10 := by
  obtain ⟨inv, _⟩ := react_engine_inv env task ctx maxIter a0 hist0
  refine ⟨?_, ?_, ?_, inv.sleeps_len, inv.sleeps_ok⟩
  · intro i tr hget
    exact (chainOK_get env _ 1 _ _ inv.chain (by decide) i tr hget).2.1
  · intro i tr tr' hget hget' hsleep
    have hcons := chainOK_consec env _ 1 _ _ inv.chain i tr tr' hget hget'
    rw [hcons, hsleep]
    simp [effNext]
  · intro tr hlast hsleep
    have hfin := chainOK_final env _ 1 _ _ inv.chain tr hlast
    rw [hfin, hsleep]
    simp [effNext]

/-- Witness for C9: in the concrete run under `c9env` from the saturated
history `c9hist`, the decision engine selects `SLEEP` at iteration 2; after
the suspension the agent is back in `THINK`, and the single recorded
suspension duration (2) lies within `[1, 10]`. -/
theorem c9_sleep_transition_witness :
    (react_engine c9env "t" [] 2 {} c9hist).agent.current_state =
      ReactState.THINK ∧ (1 ≤ (2 : ℚ) ∧ (2 : ℚ) ≤ 10) :=
  ⟨(c9_sleep_transition c9env "t" [] 2 {} c9hist).2.2.1 c9rec (by decide)
    rfl,
   (c9_sleep_transition c9env "t" [] 2 {} c9hist).2.2.2.2 2 (by decide)⟩

/-- C6 counterexample. The claim says every `react_engine` invocation
starts by initializing the Agent State with `iteration_count = 0`; in the
code only the loop-local counter starts at 0, while the Agent State field
is never reset. Concretely: after a first one-iteration invocation on a
fresh host, the initialization prologue of a second invocation leaves
`iteration_count` at 1, not 0. -/
theorem c6_initialization_counterexample :
    (initAgent "t" [] 0
      (react_engine c6env "t" [] 1 {} []).agent).iteration_count = 1 ∧
    ¬ ∀ (a0 : AgentState) (task : String) (ctx : List (String × Val))
        (t : ℚ), (initAgent task ctx t a0).iteration_count = 0 := by
  refine ⟨by decide, fun hall => ?_⟩
  have h1 : (initAgent "t" [] 0
      (react_engine c6env "t" [] 1 {} []).agent).iteration_count = 1 := by
    decide
  have h0 := hall (react_engine c6env "t" [] 1 {} []).agent "t" [] 0
  omega

/-- C6 (amended). At the start of every `react_engine` invocation the Agent
State is set to `current_state = THINK`, `complexity =
estimate_complexity(task)` and `task = task`, but its `iteration_count`
field is left unchanged (it is 0 only because a fresh host constructs it at
0, and it persists across invocations); within an invocation it is
monotonically non-decreasing, growing by exactly one per completed
iteration. -/
theorem c6_initialization_amended (env : Env) (task : String)
    (ctx : List (String × Val)) (maxIter : Nat) (a0 : AgentState)
    (hist0 : List ExecutionContext) (t : ℚ) :
    (initAgent task ctx t a0).current_state = ReactState.THINK ∧
    (initAgent task ctx t a0).task_complexity =
      estimateTaskComplexity task ∧
    (initAgent task ctx t a0).current_task = some task ∧
    (initAgent task ctx t a0).iteration_count = a0.iteration_count ∧
    (react_engine env task ctx maxIter a0 hist0).agent.iteration_count =
      a0.iteration_count +
        (react_engine env task ctx maxIter a0 hist0).count := by
  obtain ⟨inv, _⟩ := react_engine_inv env task ctx maxIter a0 hist0
  exact ⟨rfl, rfl, rfl, rfl, inv.iters⟩

/-- C3 counterexample. The claim says that after a handler raises, the
Agent State's success metrics are zeroed; in the code the `except` branch
never touches them. Concretely: under `c3env`, iteration 1 returns an
error-shaped result (setting `error_rate = 1`), iteration 2 raises, and
after the run the stale `error_rate` metric still reads 1, not 0. -/
theorem c3_error_recovery_counterexample :
    isErr (c3env.exec 2 ReactState.THINK) = true ∧
    ((react_engine c3env "t" [] 2 {} []).transitions.map
      (fun tr => tr.ctx_error)) = [false, true] ∧
    (react_engine c3env "t" [] 2 {} []).agent.error_occurred = true ∧
    assocLookup (react_engine c3env "t" [] 2 {} []).agent.success_metrics
      "error_rate" = some 1 ∧
    (1 : ℚ) ≠ 0 := by
  refine ⟨rfl, by decide, by decide, by decide, by norm_num⟩

/-- C3 (amended). When the handler call of an iteration raises, the Agent
State afterwards has `error_occurred = true` and `execution_result =
some [(error, message)]`, its success metrics are left unchanged from the
previous iteration (not zeroed), and the loop still proceeds to the
decision step, appending exactly one transition record. -/
theorem c3_error_recovery_amended (env : Env) (task : String) (k : Nat)
    (rs : RunState) (e : String)
    (hx : env.exec k rs.agent.current_state = .error e) :
    (iterStep env task k rs).agent.error_occurred = true ∧
    (iterStep env task k rs).agent.execution_result =
      some [("error", .vStr e)] ∧
    (iterStep env task k rs).agent.success_metrics =
      rs.agent.success_metrics ∧
    (iterStep env task k rs).transitions.length =
      rs.transitions.length + 1 := by
  simp only [iterStep, hx]
  obtain ⟨next, h1, h2, h3, h4, h5, h6, h7, h8, h9, h10⟩ :=
    finallyStep_char env k
      { rs with count := k,
                agent := rs.agent.update_result [("error", .vStr e)] true
                  (env.now k),
                merged := assocSet
                  (assocSet rs.merged "error" (.vStr e)) "error_state"
                  (.vStr (stateValue rs.agent.current_state)) }
  refine ⟨by rw [h4]; rfl, by rw [h5]; rfl, by rw [h6]; rfl,
    by rw [h1]; simp⟩

/-- Witness for C3 (amended): a concrete iteration whose handler raises
`boom` while the agent is in `THINK`. -/
theorem c3_error_recovery_amended_witness :
    (iterStep c3env "t" 2 c3rs).agent.error_occurred = true ∧
    (iterStep c3env "t" 2 c3rs).agent.execution_result =
      some [("error", Val.vStr "boom")] ∧
    (iterStep c3env "t" 2 c3rs).agent.success_metrics =
      c3rs.agent.success_metrics ∧
    (iterStep c3env "t" 2 c3rs).transitions.length =
      c3rs.transitions.length + 1 :=
  c3_error_recovery_amended c3env "t" 2 c3rs "boom" rfl

/-- C2 counterexample. The claim says a handler result containing a
non-empty `content_text` field always satisfies the completion predicate;
the code only inspects `result["result"]["content_text"]`, so a result with
a top-level non-empty `content_text` is not detected as complete. -/
theorem c2_completion_counterexample :
    ¬ ∀ (r : List (String × Val)) (task s : String),
        assocLookup r "content_text" = some (.vStr s) → s ≠ "" →
        isTaskComplete r task = true := by
  intro hall
  have := hall [("content_text", .vStr "x")] "t" "x" rfl (by decide)
  exact absurd this (by decide)

/-- C2 (amended). Completion is detected inside the `result` sub-map: a
handler result whose `result` sub-map contains a `content_text` key always
satisfies the completion predicate (the code does not even require the text
to be non-empty), and a result containing only an `error` field never
does. -/
theorem c2_completion_amended :
    (∀ (r : List (String × Val)) (task : String)
       (sub : List (String × Val)),
       assocLookup r "result" = some (.vObj sub) →
       assocHasKey sub "content_text" = true →
       isTaskComplete r task = true) ∧
    ∀ (task : String) (v : Val),
      isTaskComplete [("error", v)] task = false := by
  constructor
  · intro r task sub h1 h2
    unfold isTaskComplete
    split
    · rfl
    · rw [if_pos]
      simp only [pyGet, h1, Option.getD_some, pyContainsKey]
      exact h2
  · intro task v
    rfl

/-- Witness for C2 (amended): a result whose `result` sub-map carries
`content_text` is complete; a bare error dict is not. -/
theorem c2_completion_amended_witness :
    isTaskComplete
      [("result", Val.vObj [("content_text", Val.vStr "hello")])] "t" =
      true ∧
    isTaskComplete [("error", Val.vStr "boom")] "t" = false :=
  ⟨c2_completion_amended.1 _ "t" _ rfl rfl,
   c2_completion_amended.2 "t" _⟩

/-- C5 (confirmed). Capability resolution: creating a deliberative
(chain-of-thought) agent from the catalogue name `TrendAnalyzer` under the
name `x` succeeds and stores the instance retrievably under `x`; the
unresolvable descriptor `NoSuchThing` makes `createAgent` raise; and in
general `createAgent` propagates an error to the caller (never swallows it)
whenever the agent-type string is unrecognized or the signature descriptor
cannot be resolved. (`deliberative` is the specification's name for the
code's `chain_of_thought` kind.) -/
theorem c5_capability_resolution :
    createAgent [] (.byStr "chain_of_thought") (.byName "TrendAnalyzer")
        (some "x") =
      .ok (.chainOfThoughtOf .TrendAnalyzer,
           [("x", .chainOfThoughtOf .TrendAnalyzer)]) ∧
    assocLookup [("x", AgentInstance.chainOfThoughtOf .TrendAnalyzer)]
        "x" = some (.chainOfThoughtOf .TrendAnalyzer) ∧
    (∃ e, createAgent [] (.byStr "chain_of_thought")
        (.byName "NoSuchThing") none = .error e) ∧
    ∀ (created : List (String × AgentInstance)) (t : AgentTypeInput)
      (s : SigInput) (n : Option String),
      isErr (normAgentType t) = true ∨ resolveSignature s = none →
      ∃ e, createAgent created t s n = .error e := by
  refine ⟨rfl, rfl,
    ⟨"Failed to create agent: Could not resolve signature", rfl⟩, ?_⟩
  intro created t s n h
  rcases hnt : normAgentType t with e | t'
  · exact ⟨"Failed to create agent: " ++ e, by simp [createAgent, hnt]⟩
  · rcases h with h | h
    · rw [hnt] at h
      exact absurd h (by simp [isErr])
    · exact ⟨"Failed to create agent: Could not resolve signature",
        by simp [createAgent, hnt, h]⟩

/-- Witness for C5: an unrecognized agent-type string makes `createAgent`
raise even when the signature resolves. -/
theorem c5_capability_resolution_witness :
    isErr (normAgentType (.byStr "bogus")) = true ∧
    ∃ e, createAgent [] (.byStr "bogus") (.byName "TrendAnalyzer") none =
      .error e :=
  ⟨by decide,
   c5_capability_resolution.2.2.2 [] (.byStr "bogus")
     (.byName "TrendAnalyzer") none (Or.inl (by decide))⟩

/-- C7 counterexample. The claim says that with the noise pinned to 0,
`decide_next_state` is a pure function of the Agent State and the history;
but the function also reads the wall clock to compute the fatigue factor:
with the identical agent state `c7agent` and identical history `c7hist`,
a call when the clock reads 0 returns `SLEEP` (the eleven history entries
are recent, fatigue dominates) while a call when the clock reads 1000
returns `THINK` (no entry is recent, every score is 0 and the tie is broken
by enumeration order). -/
theorem c7_determinism_counterexample :
    (decideNextState 0 c7noise c7hist c7agent).1 = ReactState.SLEEP ∧
    (decideNextState 1000 c7noise c7hist c7agent).1 = ReactState.THINK :=
  ⟨by decide, by decide⟩

/-- C7 (amended). With the random noise pinned and the clock reading
pinned, `decide_next_state` is deterministic and total: the returned
control state depends on the Agent State only through the fields the
engine reads (`current_state`, `error_occurred`, `success_metrics`,
`task_complexity`) together with the history — in particular two calls at
the same clock reading with the same Agent State and history return the
same control state. Calls at different clock readings may differ, because
the fatigue factor reads the current time. -/
theorem c7_determinism_amended (now : ℚ) (noise : ReactState → ℚ)
    (hist : List ExecutionContext) (a a' : AgentState)
    (h1 : a.current_state = a'.current_state)
    (h2 : a.error_occurred = a'.error_occurred)
    (h3 : a.success_metrics = a'.success_metrics)
    (h4 : a.task_complexity = a'.task_complexity) :
    (decideNextState now noise hist a).1 =
      (decideNextState now noise hist a').1 := by
  have hf : analyzeFactors now hist a = analyzeFactors now hist a' := by
    unfold analyzeFactors
    rw [h1, h2, h3, h4]
  show argmaxState (scoreFor (analyzeFactors now hist a) noise) =
    argmaxState (scoreFor (analyzeFactors now hist a') noise)
  rw [hf]

/-- Witness for C7 (amended): two agent states differing only in fields
the engine does not read (`iteration_count`, `current_task`) yield the
same decision at the same clock reading. -/
theorem c7_determinism_amended_witness :
    (decideNextState 5 c7noise c7hist c7agent).1 =
      (decideNextState 5 c7noise c7hist
        { c7agent with iteration_count := 99,
                       current_task := some "other" }).1 :=
  c7_determinism_amended 5 c7noise c7hist _ _ rfl rfl rfl rfl

/-- C8 (confirmed). Sleep bound: for every clock reading and every content
of the decision-engine history, the computed sleep duration lies in the
interval `[1, 10]` — never above the configured maximum of 10 and never
below the base duration of 1. -/
theorem c8_sleep_bound (now : ℚ) (hist : List ExecutionContext) :
    1 ≤ calcSleepDuration now hist ∧ calcSleepDuration now hist ≤ 10 :=
  sleepDuration_bounds now hist

/-- The indicator fold of `_estimate_task_complexity` only ever raises its
accumulator. -/
theorem foldl_max_ge (tl : String) (l : List (String × ℚ)) :
    ∀ c : ℚ, c ≤ l.foldl
      (fun c iw => if pyStrContains tl iw.1 then max c iw.2 else c) c := by
  induction l with
  | nil => intro c; exact le_refl c
  | cons hd tlr ih =>
    intro c
    simp only [List.foldl_cons]
    refine le_trans ?_ (ih _)
    split
    · exact le_max_left _ _
    · exact le_refl _

/-- The complexity estimate always lies in `[1/2, 1]`. -/
theorem estimate_bounds (task : String) :
    (1 : ℚ)/2 ≤ estimateTaskComplexity task ∧
      estimateTaskComplexity task ≤ 1 := by
  simp only [estimateTaskComplexity]
  constructor
  · refine le_min ?_ (by norm_num)
    have h := foldl_max_ge (pyLower task) complexityIndicators (0.5 : ℚ)
    split
    · linarith
    · linarith
  · exact le_trans (min_le_right _ _) (by norm_num)

/-- A `simple_task` factor is only ever produced when the agent's task
complexity is below the threshold `0.3`. -/
theorem analyzeFactors_simple_lt (now : ℚ) (hist : List ExecutionContext)
    (a : AgentState) (x : ℚ)
    (hx : ("simple_task", x) ∈ analyzeFactors now hist a) :
    a.task_complexity < 0.3 := by
  simp only [analyzeFactors] at hx
  rcases List.mem_append.mp hx with hx | h
  case inr =>
    revert h
    split <;> intro h <;> simp_all
  rcases List.mem_append.mp hx with hx | h
  case inr =>
    revert h
    split <;> intro h <;> simp_all
  rcases List.mem_append.mp hx with hx | h
  case inr =>
    revert h
    split
    · intro h
      simp_all
    · split
      · rename_i hguard
        intro _
        exact hguard
      · intro h
        simp_all
  rcases List.mem_append.mp hx with h | h
  · revert h
    split <;> intro h <;> simp_all
  · revert h
    split <;> intro h <;> simp_all

/-- C10 (confirmed). For every task string the complexity estimate lies in
`[1/2, 1]`: the default 1/2 is only ever raised by `max` with the indicator
weights and the length bonus, and the final clamp caps it at 1. In
particular the estimate is strictly above the decision engine's simple-task
threshold of 3/10, so an agent state whose complexity comes from the
orchestrator's estimate never produces the `simple_task` factor. -/
theorem c10_complexity_range (task : String) (now : ℚ)
    (hist : List ExecutionContext) (a : AgentState) :
    ((1 : ℚ)/2 ≤ estimateTaskComplexity task ∧
      estimateTaskComplexity task ≤ 1) ∧
    (3/10 : ℚ) < estimateTaskComplexity task ∧
    (a.task_complexity = estimateTaskComplexity task →
      ∀ x : ℚ, ("simple_task", x) ∉ analyzeFactors now hist a) := by
  have hb := estimate_bounds task
  refine ⟨hb, by linarith [hb.1], ?_⟩
  intro hc x hx
  have hlt := analyzeFactors_simple_lt now hist a x hx
  rw [hc] at hlt
  have := hb.1
  linarith

/-- Witness for C10: with the complexity of the task string `t` installed
in an agent state, the factor list contains no `simple_task` entry. -/
theorem c10_complexity_range_witness :
    ("simple_task", (7/10 : ℚ)) ∉
      analyzeFactors 0 []
        { task_complexity := estimateTaskComplexity "t" } :=
  (c10_complexity_range "t" 0 []
    { task_complexity := estimateTaskComplexity "t" }).2.2 rfl (7/10)
